import Mathlib

/-!
Verification of the plot_your_path job-capture pipeline.

The Python source under src/ is shallowly embedded here: pure helpers become
Lean functions, the SQLAlchemy session becomes explicit state passing on a
DB record, and external collaborators (HTTP client, LLM backends, the
BeautifulSoup text extractor, the slugify library, the JSON parser and the
system clock) become function or value parameters.  Committed database state
is the observable state: an operation that raises before commit returns the
original DB value, matching rollback-on-error semantics.
-/

namespace PlotYourPath

/-! ## Python-style string helpers

Models of the CPython string methods used by the source: str.strip,
str.lower, and the truthiness-based default idiom (x or d).  Strings are
handled through their character lists so that proofs can reuse list lemmas.
-/

/-- Model of the whitespace class stripped by Python str.strip (ASCII part). -/
def pyIsSpace (c : Char) : Bool :=
  c = ' ' || c = '\t' || c = '\n' || c = '\r' || c = Char.ofNat 11 || c = Char.ofNat 12

/-- Model of Python str.strip on a character list: drop the whitespace run at
both ends. -/
def stripL (l : List Char) : List Char :=
  List.rdropWhile pyIsSpace (l.dropWhile pyIsSpace)

/-- Model of Python str.strip. -/
def pyStrip (s : String) : String :=
  ⟨stripL s.data⟩

/-- Model of Python str.lower (ASCII folding, as used for skill names). -/
def pyLower (s : String) : String :=
  ⟨s.data.map Char.toLower⟩

/-- Model of the Python idiom (v or d) applied to an optional string: None
and the empty string are falsy and give the default. -/
def orElseStr (v : Option String) (d : String) : String :=
  match v with
  | none => d
  | some s => if s = "" then d else s

/-- Association-list lookup used to model the Python dict lookup by key. -/
def lookupTable : List (String × String) → String → Option String
  | [], _ => none
  | (k, v) :: rest, key => if key = k then some v else lookupTable rest key

/-! ## Skill Normalizer (src/backend/services/skill_extractor.py) -/

/-- The KNOWN_CAPITALIZATIONS alias table from
SkillExtractorService.normalize_skill_name, transcribed verbatim. -/
def KNOWN_CAPITALIZATIONS : List (String × String) :=
  [("python", "Python"),
   ("javascript", "JavaScript"),
   ("typescript", "TypeScript"),
   ("react", "React"),
   ("react.js", "React"),
   ("reactjs", "React"),
   ("vue", "Vue.js"),
   ("vue.js", "Vue.js"),
   ("angular", "Angular"),
   ("node.js", "Node.js"),
   ("nodejs", "Node.js"),
   ("fastapi", "FastAPI"),
   ("django", "Django"),
   ("flask", "Flask"),
   ("postgresql", "PostgreSQL"),
   ("mysql", "MySQL"),
   ("mongodb", "MongoDB"),
   ("redis", "Redis"),
   ("docker", "Docker"),
   ("kubernetes", "Kubernetes"),
   ("aws", "AWS"),
   ("gcp", "GCP"),
   ("azure", "Azure"),
   ("git", "Git"),
   ("graphql", "GraphQL"),
   ("rest", "REST"),
   ("sql", "SQL"),
   ("html", "HTML"),
   ("css", "CSS"),
   ("rust", "Rust"),
   ("go", "Go"),
   ("golang", "Go"),
   ("java", "Java"),
   ("c++", "C++"),
   ("c#", "C#"),
   ("ruby", "Ruby"),
   ("scala", "Scala"),
   ("kafka", "Apache Kafka"),
   ("apache kafka", "Apache Kafka"),
   ("spark", "Apache Spark"),
   ("apache spark", "Apache Spark")]

/-- Embedding of SkillExtractorService.normalize_skill_name: strip the raw
name, look its lowercase form up in the alias table, and fall back to the
stripped name unchanged. -/
def normalize_skill_name (s : String) : String :=
  match lookupTable KNOWN_CAPITALIZATIONS (pyLower (pyStrip s)) with
  | some v => v
  | none => pyStrip s

/-! ## Data model (src/backend/models)

Rows carry the columns the pipeline reads or writes; autoincrement ids are
modelled by per-table counters on the DB record.  The committed database is
a DB value; SQLAlchemy session staging is explicit state passing, and the
unique constraint of role_skills is checked by flushRoleSkills below.
-/

structure Company where
  id : Nat
  name : String
  slug : String
deriving DecidableEq

structure Role where
  id : Nat
  companyId : Nat
  title : String
  teamDivision : Option String
  salaryMin : Option Int
  salaryMax : Option Int
  salaryCurrency : String
  url : String
  rawHtmlPath : String
  cleanedMdPath : String
  status : String
deriving DecidableEq

structure Skill where
  id : Nat
  name : String
  category : Option String
deriving DecidableEq

structure RoleSkillRow where
  id : Nat
  roleId : Nat
  skillId : Nat
  level : String
deriving DecidableEq

structure DB where
  companies : List Company
  roles : List Role
  skills : List Skill
  roleSkills : List RoleSkillRow
  nextCompanyId : Nat
  nextRoleId : Nat
  nextSkillId : Nat
  nextRoleSkillId : Nat
deriving DecidableEq

/-- The empty database produced by init_db. -/
def emptyDB : DB :=
  ⟨[], [], [], [], 1, 1, 1, 1⟩

/-! ## Skill Linker (src/backend/services/skill_extractor.py) -/

/-- Embedding of SkillExtractorService.get_or_create_skill: normalize the
name, look an existing skill up by case-insensitive match (ilike without
wildcards), otherwise stage a new row and flush to obtain its id. -/
def get_or_create_skill (db : DB) (name : String) (category : Option String) :
    Skill × DB :=
  let normalizedName := normalize_skill_name name
  match db.skills.find? (fun sk => pyLower sk.name == pyLower normalizedName) with
  | some sk => (sk, db)
  | none =>
    let sk : Skill := ⟨db.nextSkillId, normalizedName, category⟩
    (sk, { db with skills := db.skills ++ [sk], nextSkillId := db.nextSkillId + 1 })

/-- One iteration of the linking loops of link_skills_to_role: skip blank
names, otherwise get-or-create the skill and stage one RoleSkill row with
the given requirement level. -/
def linkOne (roleId : Nat) (level : String) (acc : DB × Nat) (name : String) :
    DB × Nat :=
  if pyStrip name = "" then acc
  else
    let r := get_or_create_skill acc.1 name none
    let row : RoleSkillRow := ⟨r.2.nextRoleSkillId, roleId, r.1.id, level⟩
    ({ r.2 with
        roleSkills := r.2.roleSkills ++ [row],
        nextRoleSkillId := r.2.nextRoleSkillId + 1 },
     acc.2 + 1)

/-- The staging part of SkillExtractorService.link_skills_to_role: process
every required name, then every preferred name, counting created links. -/
def link_skills_stage (db : DB) (roleId : Nat)
    (required preferred : List String) : DB × Nat :=
  preferred.foldl (linkOne roleId "preferred")
    (required.foldl (linkOne roleId "required") (db, 0))

/-- True when some (roleId, skillId) pair occurs twice. -/
def hasDupPairs : List (Nat × Nat) → Bool
  | [] => false
  | p :: rest => (decide (p ∈ rest)) || hasDupPairs rest

/-- Model of the session flush executing the staged RoleSkill inserts: the
unique constraint _role_skill_uc on (role_id, skill_id) from
src/backend/models/role_skill.py raises an IntegrityError on a duplicate
pair, modelled as an error value. -/
def flushRoleSkills (db : DB) : Except Unit DB :=
  if hasDupPairs (db.roleSkills.map (fun r => (r.roleId, r.skillId))) then .error ()
  else .ok db

/-- Embedding of SkillExtractorService.link_skills_to_role: stage the links
and flush, surfacing a constraint violation as an error. -/
def link_skills_to_role (db : DB) (roleId : Nat)
    (required preferred : List String) : Except Unit (DB × Nat) :=
  let staged := link_skills_stage db roleId required preferred
  match flushRoleSkills staged.1 with
  | .error e => .error e
  | .ok d => .ok (d, staged.2)

/-- Number of non-blank names in a list (the ones the linker processes). -/
def countNonBlank (names : List String) : Nat :=
  (names.filter (fun s => !(pyStrip s == ""))).length

/-- Link-count of a linking result, none when the flush failed. -/
def linkResultCount : Except Unit (DB × Nat) → Option Nat
  | .ok p => some p.2
  | .error _ => none

/-- Number of persisted RoleSkill rows of a linking result. -/
def linkResultRows : Except Unit (DB × Nat) → Option Nat
  | .ok p => some p.1.roleSkills.length
  | .error _ => none

/-! ## Scraper (src/backend/services/scraper.py)

The HTTP client is abstracted by an attempt-outcome function: outcome i is
what the i-th httpx GET of one _scrape_with_httpx call produces.  Sleeps are
recorded as a list of durations in seconds.
-/

/-- Embedding of ScrapingConfig from src/backend/config.py (defaults:
30, 3, agent string, 2, 500). -/
structure ScrapingConfig where
  timeoutSeconds : Nat
  retryAttempts : Nat
  rateLimitDelaySeconds : Nat
  minContentChars : Nat
deriving DecidableEq

/-- Outcome of one httpx attempt: a body, an HTTP status error with the text
of the exception, or a transient request/timeout error with its text. -/
inductive AttemptOutcome where
  | success (html : String)
  | httpStatus (code : Nat) (cause : String)
  | transient (cause : String)
deriving DecidableEq

def isSuccessAttempt : AttemptOutcome → Bool
  | .success _ => true
  | _ => false

/-- Text of the underlying exception of a failed attempt. -/
def attemptCause : AttemptOutcome → String
  | .success _ => ""
  | .httpStatus _ cause => cause
  | .transient cause => cause

/-- Accumulated state of the retry loop of _scrape_with_httpx. -/
structure LoopOut where
  html : Option String
  lastErr : Option String
  sleeps : List Nat
  made : Nat
deriving DecidableEq

/-- The retry loop body of _scrape_with_httpx over the remaining attempt
indices: return on success; on a 429 status sleep the exponential backoff,
on a transient error sleep the flat delay unless this was the final
attempt; non-429 status errors only record the cause. -/
def loopGo (cfg : ScrapingConfig) (outcome : Nat → AttemptOutcome) :
    List Nat → Option String → List Nat → Nat → LoopOut
  | [], lastErr, sleeps, made => ⟨none, lastErr, sleeps, made⟩
  | i :: rest, lastErr, sleeps, made =>
    match outcome i with
    | .success h => ⟨some h, lastErr, sleeps, made + 1⟩
    | .httpStatus code cause =>
      loopGo cfg outcome rest (some cause)
        (sleeps ++ (if code = 429 then [cfg.rateLimitDelaySeconds * 2 ^ i] else []))
        (made + 1)
    | .transient cause =>
      loopGo cfg outcome rest (some cause)
        (sleeps ++ (if i < cfg.retryAttempts - 1 then [cfg.rateLimitDelaySeconds] else []))
        (made + 1)

/-- How Python prints an Option String inside an f-string. -/
def pyNoneStr : Option String → String
  | none => "None"
  | some c => c

/-- The exhaustion message of _scrape_with_httpx. -/
def scrapeFailMsg (url : String) (n : Nat) (lastErr : Option String) : String :=
  "Failed to scrape " ++ url ++ " after " ++ toString n ++ " attempts: "
    ++ pyNoneStr lastErr

/-- Result of one _scrape_with_httpx call: outcome, sleeps performed, and
number of attempts made. -/
structure HttpxRun where
  result : Except String String
  sleeps : List Nat
  attemptsMade : Nat

/-- Embedding of ScraperService._scrape_with_httpx: run the retry loop over
attempt indices 0..retryAttempts-1 and raise the exhaustion message holding
the last underlying cause when no attempt succeeded. -/
def scrape_with_httpx (cfg : ScrapingConfig) (url : String)
    (outcome : Nat → AttemptOutcome) : HttpxRun :=
  let o := loopGo cfg outcome (List.range cfg.retryAttempts) none [] 0
  { result :=
      match o.html with
      | some h => .ok h
      | none => .error (scrapeFailMsg url cfg.retryAttempts o.lastErr),
    sleeps := o.sleeps,
    attemptsMade := o.made }

/-- Spec-side description of the wait after one failed attempt, written from
the spec sentence: exponential backoff (base times 2 to the attempt) on
HTTP 429, flat base delay on a transient error except after the final
attempt, and nothing otherwise. -/
def expectedSleep (cfg : ScrapingConfig) (i : Nat) : AttemptOutcome → List Nat
  | .success _ => []
  | .httpStatus code _ => if code = 429 then [cfg.rateLimitDelaySeconds * 2 ^ i] else []
  | .transient _ => if i < cfg.retryAttempts - 1 then [cfg.rateLimitDelaySeconds] else []

/-- Spec-side description of all waits over the first k attempts. -/
def expectedSleeps (cfg : ScrapingConfig) (outcome : Nat → AttemptOutcome)
    (k : Nat) : List Nat :=
  ((List.range k).map (fun j => expectedSleep cfg j (outcome j))).flatten

/-- The UNSUPPORTED_DOMAINS denylist of ScraperService. -/
def UNSUPPORTED_DOMAINS : List String := ["linkedin.com", "www.linkedin.com"]

/-- Error raised by ScraperService.scrape: a ValueError for malformed input
or a ScraperError with a message. -/
inductive ScrapeErr where
  | valueError (msg : String)
  | scraperError (msg : String)
deriving DecidableEq

/-- The denylist rejection message of ScraperService.scrape. -/
def unsupportedDomainMsg (domain : String) : String :=
  "\x27" ++ domain ++ "\x27 is not supported: LinkedIn requires authentication and "
    ++ "actively blocks automated access. Use the direct ATS link "
    ++ "(Greenhouse, Lever, Workday, etc.) listed in the job posting instead."

/-- The error message ScraperService.scrape raises when content is thin or
the lightweight fetch failed and Playwright is not installed; it names the
installation steps. -/
def playwrightInstallMsg : String :=
  "Scraped content was too thin (JavaScript rendering likely required) and "
    ++ "Playwright is not installed. Install it with:\n"
    ++ "  uv sync --extra browser\n"
    ++ "  uv run playwright install chromium"

/-- Embedding of ScraperService.scrape.  urlValid and domain stand for the
results of the urllib-based is_valid_url and get_domain; httpxResult is what
_scrape_with_httpx raises or returns; extractText stands for
extract_text_from_html (BeautifulSoup); pwAvailable is
playwright_available(); pwResult is what _scrape_with_playwright on the
same url raises or returns.  The second component lists the urls passed to
the Playwright path, in order. -/
def scrape (cfg : ScrapingConfig) (url : String) (urlValid : Bool)
    (domain : String) (httpxResult : Except String String)
    (extractText : String → String) (pwAvailable : Bool)
    (pwResult : Except String String) :
    Except ScrapeErr String × List String :=
  if urlValid = false then (.error (.valueError ("Invalid URL: " ++ url)), [])
  else if UNSUPPORTED_DOMAINS.contains domain then
    (.error (.scraperError (unsupportedDomainMsg domain)), [])
  else
    match httpxResult with
    | .ok html =>
      if cfg.minContentChars ≤ (extractText html).length then (.ok html, [])
      else if pwAvailable = false then
        (.error (.scraperError playwrightInstallMsg), [])
      else (pwResult.mapError ScrapeErr.scraperError, [url])
    | .error _ =>
      if pwAvailable = false then
        (.error (.scraperError playwrightInstallMsg), [])
      else (pwResult.mapError ScrapeErr.scraperError, [url])

/-- Substring test on character lists. -/
def hasSubstrAux (needle : List Char) : List Char → Bool
  | [] => needle.isEmpty
  | c :: t => needle.isPrefixOf (c :: t) || hasSubstrAux needle t

/-- Substring test on strings, used to state that a message carries or does
not carry a given text. -/
def hasSubstr (hay needle : String) : Bool :=
  hasSubstrAux needle.data hay.data

/-- A concrete httpx exhaustion message used for the C4 counterexample. -/
def c4HttpxMsg : String :=
  "Failed to scrape https://jobs.example.com/1 after 3 attempts: boom"

/-- A concrete all-failing attempt sequence used for the C5 witness. -/
def c5Outcome : Nat → AttemptOutcome :=
  fun j => if j = 0 then .httpStatus 429 "rate limited"
    else if j = 1 then .transient "timed out" else .transient "boom"

/-! ## LLM extraction (src/backend/services/llm_service.py) -/

/-- Error raised by LLMService: a transport failure of a provider call, a
non-JSON structured-extract response, or a response missing one of the
required fields. -/
inductive LLMErr where
  | transport (msg : String)
  | invalidJson (response : String)
  | missingField (field : String)
deriving DecidableEq

/-- The message text of the missing-field error of extract_job_data. -/
def missingFieldMsg (field : String) : String :=
  "LLM response missing required field: " ++ field

/-- JSON values, the shape json.loads produces. -/
inductive JVal where
  | null
  | str (s : String)
  | num (n : Int)
  | bool (b : Bool)
  | arr (xs : List JVal)
  | obj (fields : List (String × JVal))

/-- Embedding of the code-fence stripping of extract_job_data: strip the
response, and when it starts with a fence, drop the fence, an optional json
tag and following whitespace, then drop a trailing fence plus the
whitespace before it. -/
def stripFences (response : String) : String :=
  let l := stripL response.data
  if ("```".data).isPrefixOf l then
    let l1 := l.drop 3
    let l2 := if ("json".data).isPrefixOf l1 then l1.drop 4 else l1
    let l3 := l2.dropWhile pyIsSpace
    let l4 :=
      if ("```".data).isSuffixOf l3 then
        List.rdropWhile pyIsSpace (l3.take (l3.length - 3))
      else l3
    ⟨l4⟩
  else ⟨l⟩

/-- The required_fields list of extract_job_data. -/
def requiredFields : List String :=
  ["title", "company", "required_skills", "preferred_skills"]

/-- Embedding of LLMService.extract_job_data downstream of the provider
call: parse stands for json.loads returning the fields of a JSON object or
failing; the fence-stripped response must parse and must contain every
required field, in checking order, before the parsed object is returned. -/
def extract_job_data (parse : String → Option (List (String × JVal)))
    (response : String) : Except LLMErr (List (String × JVal)) :=
  match parse (stripFences response) with
  | none => .error (.invalidJson (stripFences response))
  | some data =>
    match requiredFields.find? (fun f => !((data.map Prod.fst).contains f)) with
    | some f => .error (.missingField f)
    | none => .ok data

/-! ## Capture orchestrator (src/backend/routers/jobs.py scrape_job;
capture.py main has the same stages and rollback behaviour) -/

/-- The fields of the extract_job_data result that the orchestrator reads,
with None modelling both JSON null and absence after validation. -/
structure JobData where
  title : Option String
  company : Option String
  teamDivision : Option String
  salaryMin : Option Int
  salaryMax : Option Int
  salaryCurrency : Option String
  requiredSkills : Option (List String)
  preferredSkills : Option (List String)
deriving DecidableEq

/-- Side effects of one capture, in order: the HTTP fetch, the two model
calls, and the artifact file writes. -/
inductive Event where
  | fetch (url : String)
  | llmDenoise
  | llmExtract
  | saveFile (path : String)
deriving DecidableEq

/-- The response payload of the scrape endpoint (processing time omitted:
wall clock). -/
structure JobScrapeResponse where
  status : String
  roleId : Nat
  company : String
  title : String
  skillsExtracted : Nat
deriving DecidableEq

/-- Failure surfaced by one capture, tagged by the failing stage. -/
inductive PipeErr where
  | scrapeFailed (msg : String)
  | denoiseFailed (msg : String)
  | extractFailed (e : LLMErr)
  | integrityError
deriving DecidableEq

/-- Company-name lookup of the duplicate branch: name of the company row
with the given id, or the literal fallback. -/
def companyNameFor (db : DB) (companyId : Nat) : String :=
  match db.companies.find? (fun c => c.id == companyId) with
  | some c => c.name
  | none => "Unknown"

/-- Count of RoleSkill rows of one role, as the duplicate branch queries it. -/
def roleSkillCount (db : DB) (roleId : Nat) : Nat :=
  (db.roleSkills.filter (fun rs => rs.roleId == roleId)).length

/-- The idiom (jobData.get(k) or default).strip() or default. -/
def pyStrOrDefault (v : Option String) (d : String) : String :=
  if pyStrip (orElseStr v d) = "" then d else pyStrip (orElseStr v d)

/-- The company name fallback of step 4 of scrape_job. -/
def captureCompanyName (jd : JobData) : String :=
  pyStrOrDefault jd.company "Unknown Company"

/-- The title fallback of step 5 of scrape_job. -/
def captureTitle (jd : JobData) : String :=
  pyStrOrDefault jd.title "Unknown Title"

/-- Step 4 of scrape_job: look the company up case-insensitively by name; on
a miss derive a slug (appending the timestamp when the slug is taken) and
insert a new company row, flushing to obtain its id. -/
def upsert_company (db : DB) (companyName : String) (mkSlug : String → String)
    (now : Nat) : Company × DB :=
  match db.companies.find? (fun c => pyLower c.name == pyLower companyName) with
  | some c => (c, db)
  | none =>
    let slug0 := mkSlug companyName
    let slug :=
      if (db.companies.find? (fun c => c.slug == slug0)).isSome
      then slug0 ++ "-" ++ toString now else slug0
    let c : Company := ⟨db.nextCompanyId, companyName, slug⟩
    (c, { db with companies := db.companies ++ [c],
                  nextCompanyId := db.nextCompanyId + 1 })

/-- Step 5 of scrape_job: the Role row staged with placeholder paths. -/
def newRole (db1 : DB) (companyId : Nat) (title url : String) (jd : JobData) :
    Role :=
  ⟨db1.nextRoleId, companyId, title, jd.teamDivision, jd.salaryMin, jd.salaryMax,
   orElseStr jd.salaryCurrency "USD", url, "pending", "pending", "active"⟩

/-- The canonical raw-HTML artifact path of step 6. -/
def rawPathFor (slug : String) (id : Nat) : String :=
  "data/jobs/raw/" ++ slug ++ "/" ++ toString id ++ ".html"

/-- The canonical cleaned-Markdown artifact path of step 6. -/
def cleanedPathFor (slug : String) (id : Nat) : String :=
  "data/jobs/cleaned/" ++ slug ++ "/" ++ toString id ++ ".md"

/-- Staging the new role row (the flush after db.add assigns its id). -/
def withRole (db1 : DB) (role : Role) : DB :=
  { db1 with roles := db1.roles ++ [role], nextRoleId := db1.nextRoleId + 1 }

/-- Step 6 of scrape_job: update the staged role with the real artifact
paths. -/
def updatePaths (db2 : DB) (role : Role) (rawPath cleanedPath : String) : DB :=
  { db2 with roles := db2.roles.map (fun r =>
      if r.id == role.id then
        { role with rawHtmlPath := rawPath, cleanedMdPath := cleanedPath }
      else r) }

/-- Steps 4 to 8 of scrape_job (company upsert, role creation, artifact
persistence, skill linking, commit), entered once scraping, de-noising and
extraction have all succeeded. -/
def capture_success (db : DB) (url : String) (jd : JobData)
    (mkSlug : String → String) (now : Nat) :
    Except PipeErr JobScrapeResponse × DB × List Event :=
  let u := upsert_company db (captureCompanyName jd) mkSlug now
  let role := newRole u.2 u.1.id (captureTitle jd) url jd
  let db3 := updatePaths (withRole u.2 role) role
    (rawPathFor u.1.slug role.id) (cleanedPathFor u.1.slug role.id)
  let events := [Event.fetch url, .llmDenoise, .llmExtract,
    .saveFile (rawPathFor u.1.slug role.id),
    .saveFile (cleanedPathFor u.1.slug role.id)]
  match link_skills_to_role db3 role.id (jd.requiredSkills.getD [])
      (jd.preferredSkills.getD []) with
  | .error _ => (.error .integrityError, db, events)
  | .ok p =>
    (.ok ⟨"success", role.id, u.1.name, captureTitle jd, p.2⟩, p.1, events)

/-- Embedding of the scrape_job endpoint body.  scrapeResult, denoiseResult
and extractResult stand for what the scraper and LLM service raise or
return; mkSlug stands for the slugify library; now is int(time.time()) at
the slug-collision check.  Returns the response or error, the committed
database (unchanged on any error, since commit only happens at the end and
an uncommitted session is rolled back), and the effects performed. -/
def scrape_job (db : DB) (url : String)
    (scrapeResult : Except String String)
    (denoiseResult : Except String String)
    (extractResult : Except LLMErr JobData)
    (mkSlug : String → String) (now : Nat) :
    Except PipeErr JobScrapeResponse × DB × List Event :=
  match db.roles.find? (fun r => r.url == url) with
  | some existing =>
    (.ok ⟨"already_exists", existing.id, companyNameFor db existing.companyId,
          existing.title, roleSkillCount db existing.id⟩, db, [])
  | none =>
    match scrapeResult with
    | .error m => (.error (.scrapeFailed m), db, [.fetch url])
    | .ok _ =>
      match denoiseResult with
      | .error m => (.error (.denoiseFailed m), db, [.fetch url, .llmDenoise])
      | .ok _ =>
        match extractResult with
        | .error e =>
          (.error (.extractFailed e), db, [.fetch url, .llmDenoise, .llmExtract])
        | .ok jd => capture_success db url jd mkSlug now

/-- Well-formedness of a committed database: ids respect the autoincrement
counters and company ids are distinct, as the relational store guarantees. -/
def DBWF (db : DB) : Prop :=
  (∀ c ∈ db.companies, c.id < db.nextCompanyId)
  ∧ (db.companies.map Company.id).Nodup
  ∧ (∀ r ∈ db.roles, r.id < db.nextRoleId)
  ∧ (∀ rs ∈ db.roleSkills, rs.roleId < db.nextRoleId)

/-- A concrete JobData value for witnesses. -/
def jdSample : JobData :=
  ⟨some "Engineer", some "Acme", none, none, none, some "USD",
   some ["Python"], some ["Go"]⟩

/-- A concrete parse function for the C6 witness: every response parses to
an object holding only the title field. -/
def c6Parse : String → Option (List (String × JVal)) :=
  fun _ => some [("title", JVal.null)]

/-! ## Lemmas about the string helpers and the alias table -/

theorem lookupTable_mem {t : List (String × String)} {k v : String}
    (h : lookupTable t k = some v) : (k, v) ∈ t := by
  induction t with
  | nil => simp [lookupTable] at h
  | cons p rest ih =>
    obtain ⟨pk, pv⟩ := p
    by_cases hk : k = pk
    · subst hk
      simp [lookupTable] at h
      simp [h]
    · simp [lookupTable, hk] at h
      exact List.mem_cons_of_mem _ (ih h)

theorem lookupTable_eq_none_iff {t : List (String × String)} {k : String} :
    lookupTable t k = none ↔ k ∉ t.map Prod.fst := by
  induction t with
  | nil => simp [lookupTable]
  | cons p rest ih =>
    obtain ⟨pk, pv⟩ := p
    by_cases hk : k = pk
    · subst hk
      simp [lookupTable]
    · simp [lookupTable, hk, ih, Ne.symm hk]

theorem lookupTable_of_mem {t : List (String × String)} {k v : String}
    (hnd : (t.map Prod.fst).Nodup) (hmem : (k, v) ∈ t) : lookupTable t k = some v := by
  induction t with
  | nil => simp at hmem
  | cons p rest ih =>
    obtain ⟨pk, pv⟩ := p
    simp only [List.map_cons, List.nodup_cons] at hnd
    rcases List.mem_cons.mp hmem with heq | htail
    · injection heq with h1 h2
      subst h1; subst h2
      simp [lookupTable]
    · have hne : k ≠ pk := by
        intro hkk
        subst hkk
        exact hnd.1 (List.mem_map.mpr ⟨(k, v), htail, rfl⟩)
      simp [lookupTable, hne]
      exact ih hnd.2 htail

theorem dropWhile_stripL (l : List Char) :
    (stripL l).dropWhile pyIsSpace = stripL l := by
  unfold stripL
  set m := l.dropWhile pyIsSpace with hm
  have hmfix : m.dropWhile pyIsSpace = m := by
    rw [hm]; exact List.dropWhile_idempotent _ _
  obtain ⟨t, ht⟩ := List.rdropWhile_prefix pyIsSpace m
  cases hr : List.rdropWhile pyIsSpace m with
  | nil => simp
  | cons a l' =>
    rw [hr] at ht
    have hma : m = a :: (l' ++ t) := by rw [← ht]; simp
    have : ¬ pyIsSpace a := by
      intro hpa
      have hdw : (l' ++ t).dropWhile pyIsSpace = a :: (l' ++ t) := by
        rw [← List.dropWhile_cons_of_pos hpa, ← hma, hmfix, hma]
      have hlen := (List.dropWhile_sublist (l := l' ++ t) (p := pyIsSpace)).length_le
      rw [hdw] at hlen
      simp only [List.length_cons] at hlen
      omega
    rw [List.dropWhile_cons_of_neg this]

theorem stripL_idem (l : List Char) : stripL (stripL l) = stripL l := by
  conv_lhs => rw [stripL, dropWhile_stripL]
  rw [stripL, List.rdropWhile_idempotent]

theorem pyStrip_idem (s : String) : pyStrip (pyStrip s) = pyStrip s := by
  unfold pyStrip
  exact congrArg String.mk (stripL_idem s.data)

theorem table_canonical_forms :
    ∀ pr ∈ KNOWN_CAPITALIZATIONS,
      pyStrip pr.2 = pr.2 ∧ lookupTable KNOWN_CAPITALIZATIONS (pyLower pr.2) = some pr.2 := by
  decide

theorem table_keys_nodup : (KNOWN_CAPITALIZATIONS.map Prod.fst).Nodup := by
  decide

/-- C7: normalize trims surrounding whitespace and looks the trimmed value up
case-insensitively in the fixed alias table; when found it returns the
canonical form, and when not found it returns the trimmed input unchanged
with its original casing preserved, applying no generic title-casing.
Includes the concrete instances from the spec. -/
theorem normalize_skill_name_spec :
    (∀ s c, (pyLower (pyStrip s), c) ∈ KNOWN_CAPITALIZATIONS → normalize_skill_name s = c)
    ∧ (∀ s, pyLower (pyStrip s) ∉ KNOWN_CAPITALIZATIONS.map Prod.fst →
        normalize_skill_name s = pyStrip s)
    ∧ normalize_skill_name "  python  " = "Python"
    ∧ normalize_skill_name "REACT.JS" = "React"
    ∧ normalize_skill_name "golang" = "Go"
    ∧ normalize_skill_name "Terraform" = "Terraform" := by
  refine ⟨?_, ?_, by decide, by decide, by decide, by decide⟩
  · intro s c hmem
    unfold normalize_skill_name
    rw [lookupTable_of_mem table_keys_nodup hmem]
  · intro s hnot
    unfold normalize_skill_name
    rw [lookupTable_eq_none_iff.mpr hnot]

/-- Closed witness instantiating both quantified branches of
normalize_skill_name_spec at concrete inputs. -/
theorem normalize_skill_name_spec_witness :
    normalize_skill_name "REACT.JS" = "React"
    ∧ normalize_skill_name "Terraform" = "Terraform" :=
  ⟨normalize_skill_name_spec.1 "REACT.JS" "React" (by decide),
   normalize_skill_name_spec.2.1 "Terraform" (by decide)⟩

/-- C10: skill-name normalization is idempotent: a second pass over any
normalized name returns it unchanged. -/
theorem normalize_skill_name_idempotent :
    ∀ s, normalize_skill_name (normalize_skill_name s) = normalize_skill_name s := by
  intro s
  cases h : lookupTable KNOWN_CAPITALIZATIONS (pyLower (pyStrip s)) with
  | none =>
    have h1 : normalize_skill_name s = pyStrip s := by
      unfold normalize_skill_name; rw [h]
    rw [h1]
    unfold normalize_skill_name
    rw [pyStrip_idem, h]
  | some v =>
    have h1 : normalize_skill_name s = v := by
      unfold normalize_skill_name; rw [h]
    rw [h1]
    have hmem := lookupTable_mem h
    have hcan := table_canonical_forms (pyLower (pyStrip s), v) hmem
    have hstr : pyStrip v = v := hcan.1
    have hlook : lookupTable KNOWN_CAPITALIZATIONS (pyLower v) = some v := hcan.2
    unfold normalize_skill_name
    rw [hstr, hlook]

/-! ## Lemmas about the skill linker -/

theorem get_or_create_skill_frame (db : DB) (name : String) (cat : Option String) :
    (get_or_create_skill db name cat).2.companies = db.companies
    ∧ (get_or_create_skill db name cat).2.roles = db.roles
    ∧ (get_or_create_skill db name cat).2.roleSkills = db.roleSkills
    ∧ (get_or_create_skill db name cat).2.nextRoleSkillId = db.nextRoleSkillId := by
  simp only [get_or_create_skill]
  split <;> simp

theorem foldl_linkOne_spec (roleId : Nat) (level : String) :
    ∀ (names : List String) (db : DB) (n : Nat),
      (names.foldl (linkOne roleId level) (db, n)).2 = n + countNonBlank names
      ∧ (names.foldl (linkOne roleId level) (db, n)).1.companies = db.companies
      ∧ (names.foldl (linkOne roleId level) (db, n)).1.roles = db.roles
      ∧ ∃ rows,
          (names.foldl (linkOne roleId level) (db, n)).1.roleSkills
            = db.roleSkills ++ rows
          ∧ rows.length = countNonBlank names
          ∧ ∀ r ∈ rows, r.roleId = roleId ∧ r.level = level := by
  intro names
  induction names with
  | nil =>
    intro db n
    simp [countNonBlank]
  | cons name rest ih =>
    intro db n
    rw [List.foldl_cons]
    by_cases hb : pyStrip name = ""
    · have hstep : linkOne roleId level (db, n) name = (db, n) := by
        simp [linkOne, hb]
      have hcount : countNonBlank (name :: rest) = countNonBlank rest := by
        simp [countNonBlank, hb]
      rw [hstep, hcount]
      exact ih db n
    · have hstep : linkOne roleId level (db, n) name =
          ({ (get_or_create_skill db name none).2 with
              roleSkills := (get_or_create_skill db name none).2.roleSkills
                ++ [⟨(get_or_create_skill db name none).2.nextRoleSkillId, roleId,
                     (get_or_create_skill db name none).1.id, level⟩],
              nextRoleSkillId :=
                (get_or_create_skill db name none).2.nextRoleSkillId + 1 },
           n + 1) := by
        simp [linkOne, hb]
      have hcount : countNonBlank (name :: rest) = countNonBlank rest + 1 := by
        simp [countNonBlank, hb]
      rw [hstep, hcount]
      have hframe := get_or_create_skill_frame db name none
      obtain ⟨hc, hcomp, hroles, rows', hrs, hlen, hall⟩ := ih _ (n + 1)
      refine ⟨by rw [hc]; omega, by rw [hcomp]; exact hframe.1,
        by rw [hroles]; exact hframe.2.1,
        ⟨(⟨(get_or_create_skill db name none).2.nextRoleSkillId, roleId,
            (get_or_create_skill db name none).1.id, level⟩ :: rows'), ?_, ?_, ?_⟩⟩
      · rw [hrs]
        simp only
        rw [hframe.2.2.1]
        simp [List.append_assoc]
      · simp [hlen]
      · intro r hr
        rcases List.mem_cons.mp hr with hhd | htl
        · subst hhd; exact ⟨rfl, rfl⟩
        · exact hall r htl

/-- C8: linking skills processes each required then each preferred name,
silently skips blank names, creates one posting-skill link per non-blank
name with the matching requirement level, and returns the total number of
links created; the concrete instance required=Python,blank,spaces with
preferred=Go returns 2 and persists exactly 2 rows. -/
theorem link_skills_to_role_count_spec :
    (∀ (db : DB) (roleId : Nat) (required preferred : List String) (db' : DB) (n : Nat),
      link_skills_to_role db roleId required preferred = .ok (db', n) →
      n = countNonBlank required + countNonBlank preferred
      ∧ ∃ reqRows prefRows,
          db'.roleSkills = db.roleSkills ++ reqRows ++ prefRows
          ∧ reqRows.length = countNonBlank required
          ∧ prefRows.length = countNonBlank preferred
          ∧ (∀ r ∈ reqRows, r.roleId = roleId ∧ r.level = "required")
          ∧ (∀ r ∈ prefRows, r.roleId = roleId ∧ r.level = "preferred"))
    ∧ linkResultCount (link_skills_to_role emptyDB 1 ["Python", "", "  "] ["Go"]) = some 2
    ∧ linkResultRows (link_skills_to_role emptyDB 1 ["Python", "", "  "] ["Go"]) = some 2 := by
  refine ⟨?_, by decide, by decide⟩
  intro db roleId required preferred db' n h
  simp only [link_skills_to_role] at h
  cases hf : flushRoleSkills (link_skills_stage db roleId required preferred).1 with
  | error e => rw [hf] at h; exact absurd h (by simp)
  | ok d =>
    rw [hf] at h
    simp only [Except.ok.injEq, Prod.mk.injEq] at h
    have hd : d = (link_skills_stage db roleId required preferred).1 := by
      unfold flushRoleSkills at hf
      by_cases hdup : hasDupPairs ((link_skills_stage db roleId required preferred).1.roleSkills.map
          (fun r => (r.roleId, r.skillId))) = true
      · rw [if_pos hdup] at hf; exact absurd hf (by simp)
      · rw [if_neg hdup] at hf
        injection hf with hf
        exact hf.symm
    obtain ⟨hdb', hn⟩ := h
    subst hdb'
    subst hd
    unfold link_skills_stage
    obtain ⟨hc1, _, _, reqRows, hrs1, hlen1, hall1⟩ :=
      foldl_linkOne_spec roleId "required" required db 0
    obtain ⟨hc2, _, _, prefRows, hrs2, hlen2, hall2⟩ :=
      foldl_linkOne_spec roleId "preferred" preferred
        (required.foldl (linkOne roleId "required") (db, 0)).1
        (required.foldl (linkOne roleId "required") (db, 0)).2
    refine ⟨by rw [← hn]; unfold link_skills_stage; rw [hc2, hc1]; omega,
      reqRows, prefRows, ?_, hlen1, hlen2, hall1, hall2⟩
    rw [← hrs1]
    exact hrs2

/-- Closed witness for link_skills_to_role_count_spec, applying its
quantified part to a concrete successful linking run. -/
theorem link_skills_to_role_count_spec_witness :
    countNonBlank ["Python", "", "  "] + countNonBlank ["Go"] = 2 := by
  have h := link_skills_to_role_count_spec.1 emptyDB 1 ["Python", "", "  "] ["Go"]
    (link_skills_stage emptyDB 1 ["Python", "", "  "] ["Go"]).1
    (link_skills_stage emptyDB 1 ["Python", "", "  "] ["Go"]).2
    rfl
  rw [← h.1]
  decide

theorem hasDupPairs_eq_false_iff {l : List (Nat × Nat)} :
    hasDupPairs l = false ↔ l.Nodup := by
  induction l with
  | nil => simp [hasDupPairs]
  | cons p rest ih =>
    simp [hasDupPairs, List.nodup_cons, ih]

/-- C9: a posting-skill pair never repeats with a different requirement
level in flushed state — each persisted row is the first write for its pair
— while the linking layer itself stages repeated pairs without
deduplication, so a second link attempt for the same pair fails the flush
through the uniqueness constraint rather than silently no-opping. -/
theorem role_skill_pair_unique_spec :
    (∀ (db db' : DB), flushRoleSkills db = .ok db' →
        db' = db
        ∧ (∀ r₁ ∈ db.roleSkills, ∀ r₂ ∈ db.roleSkills,
            r₁.roleId = r₂.roleId → r₁.skillId = r₂.skillId → r₁ = r₂)
        ∧ (∀ r ∈ db.roleSkills,
            db.roleSkills.find?
              (fun x => x.roleId == r.roleId && x.skillId == r.skillId) = some r))
    ∧ (link_skills_stage emptyDB 1 ["Python"] ["python"]).1.roleSkills.length = 2
    ∧ flushRoleSkills (link_skills_stage emptyDB 1 ["Python"] ["python"]).1 = .error ()
    ∧ linkResultCount (link_skills_to_role emptyDB 1 ["Python"] ["python"]) = none := by
  refine ⟨?_, by decide, rfl, rfl⟩
  intro db db' hf
  unfold flushRoleSkills at hf
  by_cases hdup :
      hasDupPairs (db.roleSkills.map (fun r => (r.roleId, r.skillId))) = true
  · rw [if_pos hdup] at hf
    exact absurd hf (by simp)
  · rw [if_neg hdup] at hf
    injection hf with h
    have hnodup : (db.roleSkills.map (fun r => (r.roleId, r.skillId))).Nodup :=
      hasDupPairs_eq_false_iff.mp (by simpa using hdup)
    have hinj := List.inj_on_of_nodup_map hnodup
    refine ⟨h.symm, ?_, ?_⟩
    · intro r₁ h1 r₂ h2 hid hsk
      exact hinj h1 h2 (by rw [hid, hsk])
    · intro r hr
      cases hfind : db.roleSkills.find?
          (fun x => x.roleId == r.roleId && x.skillId == r.skillId) with
      | none =>
        exfalso
        have hnone := List.find?_eq_none.mp hfind r hr
        simp at hnone
      | some r' =>
        have hp := List.find?_some hfind
        have hmemr' := List.mem_of_find?_eq_some hfind
        simp only [Bool.and_eq_true, beq_iff_eq] at hp
        have heq : r' = r := hinj hmemr' hr (by rw [hp.1, hp.2])
        exact congrArg some heq

/-- Closed witness for role_skill_pair_unique_spec: a flushed single-row
state keeps its row as the first (and only) write for its pair. -/
theorem role_skill_pair_unique_spec_witness :
    (⟨[], [], [], [⟨1, 1, 1, "required"⟩], 1, 1, 1, 2⟩ : DB).roleSkills.find?
      (fun x => x.roleId == (1 : Nat) && x.skillId == (1 : Nat))
      = some ⟨1, 1, 1, "required"⟩ := by
  have h := (role_skill_pair_unique_spec.1
    (⟨[], [], [], [⟨1, 1, 1, "required"⟩], 1, 1, 1, 2⟩ : DB)
    (⟨[], [], [], [⟨1, 1, 1, "required"⟩], 1, 1, 1, 2⟩ : DB) rfl).2.2
    ⟨1, 1, 1, "required"⟩ (by decide)
  exact h

/-! ## Fetch fallback (C3, C4) -/

/-- C3: for a URL whose lightweight fetch succeeds with extracted text below
the minimum-content threshold: with the browser backend available the
browser path is invoked exactly once with the original URL and its result
returned verbatim; with it unavailable, scrape fails with the error naming
the installation step and the browser path is never invoked. -/
theorem scrape_thin_content_fallback_spec :
    ∀ (cfg : ScrapingConfig) (url domain html : String)
      (extractText : String → String) (pwResult : Except String String),
      domain ∉ UNSUPPORTED_DOMAINS →
      (extractText html).length < cfg.minContentChars →
      scrape cfg url true domain (.ok html) extractText true pwResult
        = (pwResult.mapError ScrapeErr.scraperError, [url])
      ∧ (∀ h, pwResult = .ok h →
          (scrape cfg url true domain (.ok html) extractText true pwResult).1
            = .ok h)
      ∧ scrape cfg url true domain (.ok html) extractText false pwResult
        = (.error (.scraperError playwrightInstallMsg), [])
      ∧ hasSubstr playwrightInstallMsg "uv sync --extra browser" = true := by
  intro cfg url domain html extractText pwResult hdom hlen
  have hmain : scrape cfg url true domain (.ok html) extractText true pwResult
      = (pwResult.mapError ScrapeErr.scraperError, [url]) := by
    simp [scrape, hdom, Nat.not_le.mpr hlen]
  refine ⟨hmain, ?_, ?_, by decide⟩
  · intro h hpw
    rw [hmain, hpw]
    rfl
  · simp [scrape, hdom, Nat.not_le.mpr hlen]

/-- Closed witness for scrape_thin_content_fallback_spec: a thin page with
the browser backend available returns the rendered browser result, invoking
the browser once with the original URL. -/
theorem scrape_thin_content_fallback_spec_witness :
    scrape ⟨30, 3, 2, 500⟩ "https://jobs.example.com/1" true "jobs.example.com"
        (.ok "<html></html>") (fun _ => "") true (.ok "<html>rendered</html>")
      = (.ok "<html>rendered</html>", ["https://jobs.example.com/1"]) :=
  (scrape_thin_content_fallback_spec ⟨30, 3, 2, 500⟩ "https://jobs.example.com/1"
    "jobs.example.com" "<html></html>" (fun _ => "") (.ok "<html>rendered</html>")
    (by decide) (by decide)).1

/-- C4 counterexample: when the lightweight fetch has failed (its error
carrying the cause boom) and the browser backend is unavailable, scrape
raises the fixed install-instructions error, which is not the original
fetch error and does not carry its cause — refuting the claim that the
original lightweight-fetch error is surfaced. -/
theorem scrape_httpx_error_counterexample :
    (scrape ⟨30, 3, 2, 500⟩ "https://jobs.example.com/1" true "jobs.example.com"
        (.error c4HttpxMsg) (fun _ => "") false (.ok "unused")).1
      = .error (.scraperError playwrightInstallMsg)
    ∧ playwrightInstallMsg ≠ c4HttpxMsg
    ∧ hasSubstr c4HttpxMsg "boom" = true
    ∧ hasSubstr playwrightInstallMsg "boom" = false :=
  ⟨rfl, by decide, by decide, by decide⟩

/-- C4 amended: when the lightweight fetch fails outright, scrape falls
through to the browser path when that backend is available; when it is
unavailable, scrape fails with the fixed thin-content error naming the
installation steps, discarding the original fetch error rather than
surfacing it. -/
theorem scrape_httpx_error_fallback_spec :
    ∀ (cfg : ScrapingConfig) (url domain msg : String)
      (extractText : String → String) (pwResult : Except String String),
      domain ∉ UNSUPPORTED_DOMAINS →
      scrape cfg url true domain (.error msg) extractText true pwResult
        = (pwResult.mapError ScrapeErr.scraperError, [url])
      ∧ scrape cfg url true domain (.error msg) extractText false pwResult
        = (.error (.scraperError playwrightInstallMsg), [])
      ∧ hasSubstr playwrightInstallMsg "uv sync --extra browser" = true := by
  intro cfg url domain msg extractText pwResult hdom
  exact ⟨by simp [scrape, hdom], by simp [scrape, hdom], by decide⟩

/-- Closed witness for scrape_httpx_error_fallback_spec: a failed lightweight
fetch with the browser backend available returns the browser result. -/
theorem scrape_httpx_error_fallback_spec_witness :
    scrape ⟨30, 3, 2, 500⟩ "https://jobs.example.com/1" true "jobs.example.com"
        (.error c4HttpxMsg) (fun _ => "") true (.ok "<html>ok</html>")
      = (.ok "<html>ok</html>", ["https://jobs.example.com/1"]) :=
  (scrape_httpx_error_fallback_spec ⟨30, 3, 2, 500⟩ "https://jobs.example.com/1"
    "jobs.example.com" c4HttpxMsg (fun _ => "") (.ok "<html>ok</html>")
    (by decide)).1

/-! ## Retry loop (C5) -/

theorem loopGo_made_le (cfg : ScrapingConfig) (outcome : Nat → AttemptOutcome) :
    ∀ (idxs : List Nat) (lastErr : Option String) (sleeps : List Nat) (made : Nat),
      (loopGo cfg outcome idxs lastErr sleeps made).made ≤ made + idxs.length := by
  intro idxs
  induction idxs with
  | nil => intro lastErr sleeps made; simp [loopGo]
  | cons i rest ih =>
    intro lastErr sleeps made
    cases h : outcome i with
    | success hh => simp [loopGo, h]
    | httpStatus code cause =>
      simp only [loopGo, h]
      have := ih (some cause)
        (sleeps ++ (if code = 429 then [cfg.rateLimitDelaySeconds * 2 ^ i] else []))
        (made + 1)
      simp only [List.length_cons]
      omega
    | transient cause =>
      simp only [loopGo, h]
      have := ih (some cause)
        (sleeps ++ (if i < cfg.retryAttempts - 1 then [cfg.rateLimitDelaySeconds] else []))
        (made + 1)
      simp only [List.length_cons]
      omega

theorem loopGo_all_fail (cfg : ScrapingConfig) (outcome : Nat → AttemptOutcome) :
    ∀ (n i : Nat) (lastErr : Option String) (sleeps : List Nat) (made : Nat),
      (∀ j, i ≤ j → j < i + n → isSuccessAttempt (outcome j) = false) →
      loopGo cfg outcome (List.range' i n) lastErr sleeps made =
        ⟨none,
         if n = 0 then lastErr else some (attemptCause (outcome (i + n - 1))),
         sleeps
           ++ ((List.range' i n).map (fun j => expectedSleep cfg j (outcome j))).flatten,
         made + n⟩ := by
  intro n
  induction n with
  | zero =>
    intro i lastErr sleeps made hfail
    simp [loopGo]
  | succ n ih =>
    intro i lastErr sleeps made hfail
    rw [List.range'_succ]
    have hfi : isSuccessAttempt (outcome i) = false := hfail i le_rfl (by omega)
    cases ho : outcome i with
    | success hh => rw [ho] at hfi; simp [isSuccessAttempt] at hfi
    | httpStatus code cause =>
      simp only [loopGo, ho]
      rw [ih (i + 1) (some cause)
        (sleeps ++ (if code = 429 then [cfg.rateLimitDelaySeconds * 2 ^ i] else []))
        (made + 1) (fun j hj1 hj2 => hfail j (by omega) (by omega))]
      congr 1
      · by_cases hn : n = 0
        · subst hn
          rw [if_pos rfl, if_neg (by omega : ¬ (0 : Nat) + 1 = 0),
            show i + (0 + 1) - 1 = i from by omega, ho]
          rfl
        · rw [if_neg hn, if_neg (by omega : ¬ n + 1 = 0),
            show i + 1 + n - 1 = i + (n + 1) - 1 from by omega]
      · rw [List.map_cons, List.flatten_cons, ← List.append_assoc, ho]
        rfl
      · omega
    | transient cause =>
      simp only [loopGo, ho]
      rw [ih (i + 1) (some cause)
        (sleeps ++ (if i < cfg.retryAttempts - 1 then [cfg.rateLimitDelaySeconds] else []))
        (made + 1) (fun j hj1 hj2 => hfail j (by omega) (by omega))]
      congr 1
      · by_cases hn : n = 0
        · subst hn
          rw [if_pos rfl, if_neg (by omega : ¬ (0 : Nat) + 1 = 0),
            show i + (0 + 1) - 1 = i from by omega, ho]
          rfl
        · rw [if_neg hn, if_neg (by omega : ¬ n + 1 = 0),
            show i + 1 + n - 1 = i + (n + 1) - 1 from by omega]
      · rw [List.map_cons, List.flatten_cons, ← List.append_assoc, ho]
        rfl
      · omega

theorem loopGo_first_success (cfg : ScrapingConfig) (outcome : Nat → AttemptOutcome) :
    ∀ (k n i : Nat) (lastErr : Option String) (sleeps : List Nat) (made : Nat)
      (h : String),
      k < n →
      (∀ j, i ≤ j → j < i + k → isSuccessAttempt (outcome j) = false) →
      outcome (i + k) = .success h →
      ∃ le, loopGo cfg outcome (List.range' i n) lastErr sleeps made =
        ⟨some h, le,
         sleeps
           ++ ((List.range' i k).map (fun j => expectedSleep cfg j (outcome j))).flatten,
         made + k + 1⟩ := by
  intro k
  induction k with
  | zero =>
    intro n i lastErr sleeps made h hk hfail hsucc
    cases n with
    | zero => omega
    | succ m =>
      rw [List.range'_succ]
      have hoi : outcome i = .success h := by simpa using hsucc
      simp only [loopGo, hoi]
      exact ⟨lastErr, by simp⟩
  | succ k ih =>
    intro n i lastErr sleeps made h hk hfail hsucc
    cases n with
    | zero => omega
    | succ m =>
      rw [List.range'_succ]
      have hfi : isSuccessAttempt (outcome i) = false := hfail i le_rfl (by omega)
      cases ho : outcome i with
      | success hh => rw [ho] at hfi; simp [isSuccessAttempt] at hfi
      | httpStatus code cause =>
        simp only [loopGo, ho]
        have hsucc' : outcome (i + 1 + k) = .success h := by
          have hidx : i + 1 + k = i + (k + 1) := by omega
          rw [hidx]; exact hsucc
        obtain ⟨le, hle⟩ := ih m (i + 1) (some cause)
          (sleeps ++ (if code = 429 then [cfg.rateLimitDelaySeconds * 2 ^ i] else []))
          (made + 1) h (by omega)
          (fun j hj1 hj2 => hfail j (by omega) (by omega)) hsucc'
        refine ⟨le, ?_⟩
        rw [hle]
        congr 1
        · rw [show List.range' i (k + 1) = i :: List.range' (i + 1) k from
              List.range'_succ i k 1,
            List.map_cons, List.flatten_cons, ← List.append_assoc, ho]
          rfl
        · omega
      | transient cause =>
        simp only [loopGo, ho]
        have hsucc' : outcome (i + 1 + k) = .success h := by
          have hidx : i + 1 + k = i + (k + 1) := by omega
          rw [hidx]; exact hsucc
        obtain ⟨le, hle⟩ := ih m (i + 1) (some cause)
          (sleeps ++ (if i < cfg.retryAttempts - 1 then [cfg.rateLimitDelaySeconds] else []))
          (made + 1) h (by omega)
          (fun j hj1 hj2 => hfail j (by omega) (by omega)) hsucc'
        refine ⟨le, ?_⟩
        rw [hle]
        congr 1
        · rw [show List.range' i (k + 1) = i :: List.range' (i + 1) k from
              List.range'_succ i k 1,
            List.map_cons, List.flatten_cons, ← List.append_assoc, ho]
          rfl
        · omega

/-- C5: the lightweight fetch makes at most retryAttempts attempts; after a
429 response it waits the exponential backoff (base delay times 2 to the
attempt index), after a transient error the flat base delay except after
the final attempt; and when every attempt has failed it raises the fetch
error whose message carries the last underlying cause. -/
theorem scrape_with_httpx_spec :
    ∀ (cfg : ScrapingConfig) (url : String) (outcome : Nat → AttemptOutcome),
      (scrape_with_httpx cfg url outcome).attemptsMade ≤ cfg.retryAttempts
      ∧ (∀ k h, k < cfg.retryAttempts →
          (∀ j, j < k → isSuccessAttempt (outcome j) = false) →
          outcome k = .success h →
          (scrape_with_httpx cfg url outcome).result = .ok h
          ∧ (scrape_with_httpx cfg url outcome).sleeps = expectedSleeps cfg outcome k
          ∧ (scrape_with_httpx cfg url outcome).attemptsMade = k + 1)
      ∧ ((∀ j, j < cfg.retryAttempts → isSuccessAttempt (outcome j) = false) →
          1 ≤ cfg.retryAttempts →
          (scrape_with_httpx cfg url outcome).result
            = .error (scrapeFailMsg url cfg.retryAttempts
                (some (attemptCause (outcome (cfg.retryAttempts - 1)))))
          ∧ (∃ s, scrapeFailMsg url cfg.retryAttempts
                (some (attemptCause (outcome (cfg.retryAttempts - 1))))
              = s ++ attemptCause (outcome (cfg.retryAttempts - 1)))
          ∧ (scrape_with_httpx cfg url outcome).sleeps
              = expectedSleeps cfg outcome cfg.retryAttempts
          ∧ (scrape_with_httpx cfg url outcome).attemptsMade = cfg.retryAttempts) := by
  intro cfg url outcome
  refine ⟨?_, ?_, ?_⟩
  · have hle := loopGo_made_le cfg outcome (List.range cfg.retryAttempts) none [] 0
    simpa [scrape_with_httpx] using hle
  · intro k h hk hfail hsucc
    obtain ⟨le, hle⟩ := loopGo_first_success cfg outcome k cfg.retryAttempts 0 none [] 0 h
      hk (fun j hj1 hj2 => hfail j (by omega)) (by simpa using hsucc)
    refine ⟨?_, ?_, ?_⟩
    · simp [scrape_with_httpx, List.range_eq_range', hle]
    · simp [scrape_with_httpx, List.range_eq_range', hle, expectedSleeps]
    · simp [scrape_with_httpx, List.range_eq_range', hle]
  · intro hfail hn
    have hall := loopGo_all_fail cfg outcome cfg.retryAttempts 0 none [] 0
      (fun j hj1 hj2 => hfail j (by omega))
    rw [if_neg (by omega : ¬ cfg.retryAttempts = 0)] at hall
    refine ⟨?_, ⟨"Failed to scrape " ++ url ++ " after " ++ toString cfg.retryAttempts
      ++ " attempts: ", rfl⟩, ?_, ?_⟩
    · simp [scrape_with_httpx, List.range_eq_range', hall]
    · simp [scrape_with_httpx, List.range_eq_range', hall, expectedSleeps]
    · simp [scrape_with_httpx, List.range_eq_range', hall]

/-- Closed witness for scrape_with_httpx_spec: a run whose three attempts
all fail (429, then two transient errors) sleeps the exponential backoff
once and the flat delay once, makes exactly 3 attempts, and raises the
message carrying the last cause. -/
theorem scrape_with_httpx_spec_witness :
    (scrape_with_httpx ⟨30, 3, 2, 500⟩ "https://jobs.example.com/1" c5Outcome).result
      = .error (scrapeFailMsg "https://jobs.example.com/1" 3 (some "boom"))
    ∧ (scrape_with_httpx ⟨30, 3, 2, 500⟩ "https://jobs.example.com/1" c5Outcome).sleeps
      = [2 * 2 ^ 0, 2]
    ∧ (scrape_with_httpx ⟨30, 3, 2, 500⟩
        "https://jobs.example.com/1" c5Outcome).attemptsMade = 3 := by
  have h := (scrape_with_httpx_spec ⟨30, 3, 2, 500⟩ "https://jobs.example.com/1"
    c5Outcome).2.2 (by decide) (by decide)
  refine ⟨h.1, ?_, h.2.2.2⟩
  rw [h.2.2.1]
  decide

/-! ## Transactionality of the capture pipeline (C2) -/

/-- C2: capture is transactional over the database: any stage failure leaves
the committed database unchanged — the transaction is rolled back before
the error is surfaced and no partial employer, posting or skill state
survives — and a success response is only produced when the fetch, de-noise
and extract stages all succeeded, commit happening only at the end. -/
theorem capture_transactional_spec :
    ∀ (db : DB) (url : String) (s d : Except String String)
      (e : Except LLMErr JobData) (mkSlug : String → String) (now : Nat),
      (∀ err db' evs,
        scrape_job db url s d e mkSlug now = (.error err, db', evs) → db' = db)
      ∧ (∀ resp db' evs,
          scrape_job db url s d e mkSlug now = (.ok resp, db', evs) →
          resp.status = "success" →
          (∃ html, s = .ok html) ∧ (∃ md, d = .ok md) ∧ (∃ jd, e = .ok jd)) := by
  intro db url s d e mkSlug now
  constructor
  · intro err db' evs h
    cases hdup : db.roles.find? (fun r => r.url == url) with
    | some ex =>
      simp only [scrape_job, hdup] at h
      exact absurd h (by simp)
    | none =>
      cases s with
      | error m =>
        simp only [scrape_job, hdup, Prod.mk.injEq] at h
        exact h.2.1.symm
      | ok html =>
        cases d with
        | error m =>
          simp only [scrape_job, hdup, Prod.mk.injEq] at h
          exact h.2.1.symm
        | ok md =>
          cases e with
          | error er =>
            simp only [scrape_job, hdup, Prod.mk.injEq] at h
            exact h.2.1.symm
          | ok jd =>
            simp only [scrape_job, capture_success, hdup] at h
            repeat split at h
            all_goals simp only [Prod.mk.injEq] at h
            all_goals
              first
              | exact h.2.1.symm
              | exact absurd h.1 (by simp)
  · intro resp db' evs h hstatus
    cases hdup : db.roles.find? (fun r => r.url == url) with
    | some ex =>
      simp only [scrape_job, hdup, Prod.mk.injEq, Except.ok.injEq] at h
      rw [← h.1] at hstatus
      have hbad : ("already_exists" : String) = "success" := hstatus
      exact absurd hbad (by decide)
    | none =>
      cases s with
      | error m =>
        simp only [scrape_job, hdup] at h
        exact absurd h (by simp)
      | ok html =>
        cases d with
        | error m =>
          simp only [scrape_job, hdup] at h
          exact absurd h (by simp)
        | ok md =>
          cases e with
          | error er =>
            simp only [scrape_job, hdup] at h
            exact absurd h (by simp)
          | ok jd =>
            exact ⟨⟨html, rfl⟩, ⟨md, rfl⟩, ⟨jd, rfl⟩⟩

/-- Closed witness for capture_transactional_spec: a capture whose fetch
stage fails leaves the empty database unchanged. -/
theorem capture_transactional_spec_witness :
    (scrape_job emptyDB "https://jobs.example.com/1" (.error "boom") (.ok "md")
        (.ok jdSample) (fun _ => "acme") 0).2.1 = emptyDB :=
  (capture_transactional_spec emptyDB "https://jobs.example.com/1" (.error "boom")
      (.ok "md") (.ok jdSample) (fun _ => "acme") 0).1
    (.scrapeFailed "boom") _ _ rfl

/-! ## Structured extraction (C6) -/

/-- C6: structured extraction strips a Markdown code fence from the model
response when present, fails with the distinct invalid-JSON error when the
remainder does not parse, fails with an error naming the first missing
field when one of title, company, required_skills, preferred_skills is
absent, returns the parsed object otherwise, and no extraction failure
persists anything: the database is unchanged. -/
theorem extract_job_data_spec :
    (∀ parse response, parse (stripFences response) = none →
        extract_job_data parse response = .error (.invalidJson (stripFences response)))
    ∧ (∀ parse response data f, parse (stripFences response) = some data →
        requiredFields.find? (fun g => !((data.map Prod.fst).contains g)) = some f →
        extract_job_data parse response = .error (.missingField f)
        ∧ missingFieldMsg f = "LLM response missing required field: " ++ f)
    ∧ (∀ parse response data, parse (stripFences response) = some data →
        (∀ f ∈ requiredFields, f ∈ data.map Prod.fst) →
        extract_job_data parse response = .ok data)
    ∧ stripFences "```json\n\x7b\"title\": \"T\"\x7d\n```" = "\x7b\"title\": \"T\"\x7d"
    ∧ (∀ (db : DB) (url : String) (s d : Except String String) (er : LLMErr)
        (mkSlug : String → String) (now : Nat),
        (scrape_job db url s d (.error er) mkSlug now).2.1 = db)
    ∧ (∀ (db : DB) (url : String) (html md : String) (er : LLMErr)
        (mkSlug : String → String) (now : Nat),
        db.roles.find? (fun r => r.url == url) = none →
        scrape_job db url (.ok html) (.ok md) (.error er) mkSlug now
          = (.error (.extractFailed er), db,
             [.fetch url, .llmDenoise, .llmExtract])) := by
  refine ⟨?_, ?_, ?_, by decide, ?_, ?_⟩
  · intro parse response hparse
    unfold extract_job_data
    rw [hparse]
  · intro parse response data f hparse hfind
    simp only [extract_job_data, hparse, hfind]
    exact ⟨trivial, rfl⟩
  · intro parse response data hparse hmem
    have hnone : requiredFields.find?
        (fun g => !((data.map Prod.fst).contains g)) = none := by
      rw [List.find?_eq_none]
      intro g hg
      have hc : (data.map Prod.fst).contains g = true :=
        List.elem_eq_true_of_mem (hmem g hg)
      rw [hc]
      decide
    simp only [extract_job_data, hparse, hnone]
  · intro db url s d er mkSlug now
    cases hdup : db.roles.find? (fun r => r.url == url) with
    | some ex => simp [scrape_job, hdup]
    | none =>
      cases s with
      | error m => simp [scrape_job, hdup]
      | ok html =>
        cases d with
        | error m => simp [scrape_job, hdup]
        | ok md => simp [scrape_job, hdup]
  · intro db url html md er mkSlug now hdup
    simp [scrape_job, hdup]

/-- Closed witness for extract_job_data_spec: a parsed object missing the
company field fails naming company, and an extraction failure leaves the
empty database unchanged. -/
theorem extract_job_data_spec_witness :
    extract_job_data c6Parse "resp" = .error (.missingField "company")
    ∧ (scrape_job emptyDB "https://jobs.example.com/1" (.ok "h") (.ok "m")
        (.error (.missingField "company")) (fun _ => "acme") 0).2.1 = emptyDB :=
  ⟨(extract_job_data_spec.2.1 c6Parse "resp" [("title", JVal.null)] "company"
      rfl rfl).1,
   extract_job_data_spec.2.2.2.2.1 emptyDB "https://jobs.example.com/1"
     (.ok "h") (.ok "m") (.missingField "company") (fun _ => "acme") 0⟩

/-! ## Idempotence of capture (C1) -/

theorem find_company_by_id {l : List Company} {c : Company}
    (hnd : (l.map Company.id).Nodup) (hmem : c ∈ l) :
    l.find? (fun x => x.id == c.id) = some c := by
  have hinj := List.inj_on_of_nodup_map hnd
  cases hfind : l.find? (fun x => x.id == c.id) with
  | none =>
    exfalso
    have hnone := List.find?_eq_none.mp hfind c hmem
    simp at hnone
  | some c' =>
    have hp := List.find?_some hfind
    have hmem' := List.mem_of_find?_eq_some hfind
    simp only [beq_iff_eq] at hp
    exact congrArg some (hinj hmem' hmem hp)

theorem upsert_company_frame (db : DB) (name : String)
    (mkSlug : String → String) (now : Nat) :
    (upsert_company db name mkSlug now).2.roles = db.roles
    ∧ (upsert_company db name mkSlug now).2.roleSkills = db.roleSkills
    ∧ (upsert_company db name mkSlug now).2.nextRoleId = db.nextRoleId := by
  simp only [upsert_company]
  split <;> simp

theorem upsert_company_find_id (db : DB) (name : String)
    (mkSlug : String → String) (now : Nat)
    (hlt : ∀ c ∈ db.companies, c.id < db.nextCompanyId)
    (hnd : (db.companies.map Company.id).Nodup) :
    (upsert_company db name mkSlug now).2.companies.find?
        (fun c => c.id == (upsert_company db name mkSlug now).1.id)
      = some (upsert_company db name mkSlug now).1 := by
  unfold upsert_company
  cases hcomp : db.companies.find? (fun c => pyLower c.name == pyLower name) with
  | some c =>
    simp only [hcomp]
    exact find_company_by_id hnd (List.mem_of_find?_eq_some hcomp)
  | none =>
    simp only [hcomp]
    rw [List.find?_append]
    have hold : db.companies.find? (fun x => x.id == db.nextCompanyId) = none := by
      rw [List.find?_eq_none]
      intro x hx
      have := hlt x hx
      simp only [beq_iff_eq]
      omega
    rw [hold]
    simp

theorem link_skills_to_role_ok {db : DB} {roleId : Nat} {req pref : List String}
    {db' : DB} {n : Nat}
    (h : link_skills_to_role db roleId req pref = .ok (db', n)) :
    db'.companies = db.companies ∧ db'.roles = db.roles
    ∧ ∃ rows, db'.roleSkills = db.roleSkills ++ rows ∧ rows.length = n
        ∧ ∀ r ∈ rows, r.roleId = roleId := by
  simp only [link_skills_to_role] at h
  cases hf : flushRoleSkills (link_skills_stage db roleId req pref).1 with
  | error e => rw [hf] at h; exact absurd h (by simp)
  | ok dd =>
    rw [hf] at h
    simp only [Except.ok.injEq, Prod.mk.injEq] at h
    have hd : dd = (link_skills_stage db roleId req pref).1 := by
      unfold flushRoleSkills at hf
      by_cases hdup2 : hasDupPairs
          ((link_skills_stage db roleId req pref).1.roleSkills.map
            (fun r => (r.roleId, r.skillId))) = true
      · rw [if_pos hdup2] at hf; exact absurd hf (by simp)
      · rw [if_neg hdup2] at hf; injection hf with hf; exact hf.symm
    obtain ⟨h1, h2⟩ := h
    subst h1
    subst hd
    obtain ⟨hc1, hcm1, hr1, reqRows, hrs1, hlen1, hall1⟩ :=
      foldl_linkOne_spec roleId "required" req db 0
    obtain ⟨hc2, hcm2, hr2, prefRows, hrs2, hlen2, hall2⟩ :=
      foldl_linkOne_spec roleId "preferred" pref
        (req.foldl (linkOne roleId "required") (db, 0)).1
        (req.foldl (linkOne roleId "required") (db, 0)).2
    have hcompanies : (link_skills_stage db roleId req pref).1.companies
        = db.companies := by
      unfold link_skills_stage
      exact hcm2.trans hcm1
    have hroles : (link_skills_stage db roleId req pref).1.roles = db.roles := by
      unfold link_skills_stage
      exact hr2.trans hr1
    refine ⟨hcompanies, hroles, reqRows ++ prefRows, ?_, ?_, ?_⟩
    · unfold link_skills_stage
      rw [← List.append_assoc, ← hrs1]
      exact hrs2
    · rw [← h2]
      have hstage2 : (link_skills_stage db roleId req pref).2
          = (req.foldl (linkOne roleId "required") (db, 0)).2
            + countNonBlank pref := hc2
      rw [List.length_append, hlen1, hlen2, hstage2, hc1]
      omega
    · intro r hr
      rcases List.mem_append.mp hr with hmem | hmem
      · exact (hall1 r hmem).1
      · exact (hall2 r hmem).1

theorem capture_success_state
    {db : DB} {url : String} {jd : JobData} {mkSlug : String → String} {now : Nat}
    {resp : JobScrapeResponse} {db1 : DB} {evs : List Event}
    (hwf : DBWF db)
    (hdup : db.roles.find? (fun r => r.url == url) = none)
    (h : capture_success db url jd mkSlug now = (.ok resp, db1, evs)) :
    ∃ role2 : Role,
      db1.roles.find? (fun r => r.url == url) = some role2
      ∧ role2.id = resp.roleId
      ∧ role2.title = resp.title
      ∧ companyNameFor db1 role2.companyId = resp.company
      ∧ roleSkillCount db1 role2.id = resp.skillsExtracted := by
  obtain ⟨hwf1, hwf2, hwf3, hwf4⟩ := hwf
  simp only [capture_success] at h
  set u := upsert_company db (captureCompanyName jd) mkSlug now with hu
  set role := newRole u.2 u.1.id (captureTitle jd) url jd with hroledef
  set db3 := updatePaths (withRole u.2 role) role
    (rawPathFor u.1.slug role.id) (cleanedPathFor u.1.slug role.id) with hdb3
  cases hlink : link_skills_to_role db3 role.id (jd.requiredSkills.getD [])
      (jd.preferredSkills.getD []) with
  | error er =>
    rw [hlink] at h
    simp at h
  | ok p =>
    rw [hlink] at h
    simp only [Prod.mk.injEq, Except.ok.injEq] at h
    obtain ⟨hresp, hdb1, hevs⟩ := h
    obtain ⟨hLc, hLr, rows, hLrs, hLlen, hLall⟩ := link_skills_to_role_ok hlink
    obtain ⟨hUroles, hUrs, hUnext⟩ :=
      upsert_company_frame db (captureCompanyName jd) mkSlug now
    rw [← hu] at hUroles hUrs hUnext
    have hrid : role.id = db.nextRoleId := by
      rw [hroledef]
      exact hUnext
    have hroleurl : role.url = url := rfl
    refine ⟨({ role with
        rawHtmlPath := rawPathFor u.1.slug role.id,
        cleanedMdPath := cleanedPathFor u.1.slug role.id } : Role),
      ?_, ?_, ?_, ?_, ?_⟩
    · -- the new role row is found by url in the committed state
      have hroles1 : db1.roles = db.roles
          ++ [{ role with
                rawHtmlPath := rawPathFor u.1.slug role.id,
                cleanedMdPath := cleanedPathFor u.1.slug role.id }] := by
        rw [← hdb1, hLr, hdb3]
        simp only [updatePaths, withRole, hUroles]
        rw [List.map_append]
        congr 1
        · have hcong : ∀ r ∈ db.roles,
              (if r.id == role.id then
                { role with
                  rawHtmlPath := rawPathFor u.1.slug role.id,
                  cleanedMdPath := cleanedPathFor u.1.slug role.id }
              else r) = id r := by
            intro r hr
            have hne : r.id ≠ role.id := by
              have := hwf3 r hr
              omega
            simp [beq_eq_false_iff_ne.mpr hne]
          rw [List.map_congr_left hcong, List.map_id]
        · simp
      rw [hroles1, List.find?_append, hdup]
      simp [hroleurl]
    · rw [← hresp]
    · rw [← hresp, hroledef]
      rfl
    · have hcompanies1 : db1.companies = u.2.companies := by
        rw [← hdb1, hLc, hdb3]
        simp [updatePaths, withRole]
      have hfindc := upsert_company_find_id db (captureCompanyName jd) mkSlug now
        hwf1 hwf2
      rw [← hu] at hfindc
      show companyNameFor db1 u.1.id = resp.company
      rw [← hresp]
      simp only [companyNameFor, hcompanies1, hfindc]
    · have hrs1 : db1.roleSkills = db.roleSkills ++ rows := by
        rw [← hdb1, hLrs, hdb3]
        simp only [updatePaths, withRole]
        rw [hUrs]
      show roleSkillCount db1 role.id = resp.skillsExtracted
      rw [← hresp]
      simp only [roleSkillCount, hrs1, List.filter_append]
      have hfilter1 : db.roleSkills.filter (fun rs => rs.roleId == role.id) = [] := by
        rw [List.filter_eq_nil_iff]
        intro rs hrs
        have := hwf4 rs hrs
        simp only [beq_iff_eq]
        omega
      have hfilter2 : rows.filter (fun rs => rs.roleId == role.id) = rows := by
        rw [List.filter_eq_self]
        intro rs hrs
        simp only [beq_iff_eq]
        exact hLall rs hrs
      rw [hfilter1, hfilter2, List.nil_append, hLlen]

/-- C1: capture is idempotent on the posting URL: after a successful capture
of a URL, any second capture invocation on that URL — whatever its fetch,
model, slug and clock collaborators would do — returns already_exists with
the same posting id, company name, title and skill count as the first
response, performs no fetch, no model call and no artifact write (empty
event list) and leaves the database unchanged (no new employer, posting,
skill or posting-skill row). -/
theorem capture_idempotent_spec :
    ∀ (db : DB) (url : String) (s d : Except String String)
      (e : Except LLMErr JobData) (mkSlug : String → String) (now : Nat)
      (resp : JobScrapeResponse) (db1 : DB) (evs : List Event),
      DBWF db →
      scrape_job db url s d e mkSlug now = (.ok resp, db1, evs) →
      resp.status = "success" →
      ∀ (s' d' : Except String String) (e' : Except LLMErr JobData)
        (mkSlug' : String → String) (now' : Nat),
        scrape_job db1 url s' d' e' mkSlug' now'
          = (.ok ⟨"already_exists", resp.roleId, resp.company, resp.title,
                  resp.skillsExtracted⟩, db1, []) := by
  intro db url s d e mkSlug now resp db1 evs hwf h hstatus s' d' e' mkSlug' now'
  cases hdup : db.roles.find? (fun r => r.url == url) with
  | some ex =>
    simp only [scrape_job, hdup, Prod.mk.injEq, Except.ok.injEq] at h
    rw [← h.1] at hstatus
    have hbad : ("already_exists" : String) = "success" := hstatus
    exact absurd hbad (by decide)
  | none =>
    cases s with
    | error m => simp only [scrape_job, hdup] at h; exact absurd h (by simp)
    | ok html =>
      cases d with
      | error m => simp only [scrape_job, hdup] at h; exact absurd h (by simp)
      | ok md =>
        cases e with
        | error er => simp only [scrape_job, hdup] at h; exact absurd h (by simp)
        | ok jd =>
          have hcs : capture_success db url jd mkSlug now = (.ok resp, db1, evs) := by
            simpa only [scrape_job, hdup] using h
          obtain ⟨role2, hfind, hid, htitle, hcomp, hcount⟩ :=
            capture_success_state ⟨hwf.1, hwf.2.1, hwf.2.2.1, hwf.2.2.2⟩ hdup hcs
          simp only [scrape_job, hfind]
          rw [hcount, hcomp, htitle, hid]

/-- Closed witness for capture_idempotent_spec: a concrete successful
capture of a URL into the empty database, followed by a second capture of
the same URL whose collaborators would all fail, which still returns the
first summary untouched. -/
theorem capture_idempotent_spec_witness :
    scrape_job
        (scrape_job emptyDB "https://jobs.example.com/1" (.ok "h") (.ok "m")
          (.ok jdSample) (fun _ => "acme") 0).2.1
        "https://jobs.example.com/1" (.error "net down") (.error "llm down")
        (.error (.transport "x")) (fun _ => "other") 5
      = (.ok ⟨"already_exists", 1, "Acme", "Engineer", 2⟩,
         (scrape_job emptyDB "https://jobs.example.com/1" (.ok "h") (.ok "m")
           (.ok jdSample) (fun _ => "acme") 0).2.1, []) := by
  have h := capture_idempotent_spec emptyDB "https://jobs.example.com/1"
    (.ok "h") (.ok "m") (.ok jdSample) (fun _ => "acme") 0
    ⟨"success", 1, "Acme", "Engineer", 2⟩
    (scrape_job emptyDB "https://jobs.example.com/1" (.ok "h") (.ok "m")
      (.ok jdSample) (fun _ => "acme") 0).2.1
    (scrape_job emptyDB "https://jobs.example.com/1" (.ok "h") (.ok "m")
      (.ok jdSample) (fun _ => "acme") 0).2.2
    (by refine ⟨?_, ?_, ?_, ?_⟩ <;> simp [emptyDB]) rfl rfl
    (.error "net down") (.error "llm down") (.error (.transport "x"))
    (fun _ => "other") 5
  exact h

end PlotYourPath
